import Mathlib

/-!
Verification development for the webhook ingestion and query service
(`main.py`, `storage.py`, `models.py`).

The Python source is shallowly embedded: the SQLite-backed message store
becomes a `List Row`, each repository operation becomes a pure Lean
function mirroring the SQL it issues, and the FastAPI webhook / listing
handlers become functions over explicit request data.  Library calls made
by the source (`hashlib.sha256`, `hmac`, SQLite `LOWER`/`LIKE`/ordering
semantics, UTF-8 encoding) are embedded by their documented semantics.
-/

set_option maxRecDepth 8000

namespace Webhook

/-! ### SHA-256 (semantics of `hashlib.sha256`, FIPS 180-4)

Bytes are `Nat` values `< 256`; 32-bit words are `Nat` values reduced
modulo `2^32` by `w32`.
-/

/-- Reduce to a 32-bit word. -/
def w32 (n : Nat) : Nat := n % 4294967296

/-- Right-rotate a 32-bit word by `n` bits. -/
def rotr (n x : Nat) : Nat := w32 ((x >>> n) ||| (x <<< (32 - n)))

/-- Bitwise complement of a 32-bit word. -/
def wnot (x : Nat) : Nat := x ^^^ 4294967295

/-- SHA-256 `Ch(x,y,z) = (x ∧ y) ⊕ (¬x ∧ z)`. -/
def ch32 (x y z : Nat) : Nat := (x &&& y) ^^^ (wnot x &&& z)

/-- SHA-256 `Maj(x,y,z)`. -/
def maj32 (x y z : Nat) : Nat := (x &&& y) ^^^ (x &&& z) ^^^ (y &&& z)

/-- SHA-256 small sigma 0. -/
def ssig0 (x : Nat) : Nat := rotr 7 x ^^^ rotr 18 x ^^^ (x >>> 3)

/-- SHA-256 small sigma 1. -/
def ssig1 (x : Nat) : Nat := rotr 17 x ^^^ rotr 19 x ^^^ (x >>> 10)

/-- SHA-256 big Sigma 0. -/
def bsig0 (x : Nat) : Nat := rotr 2 x ^^^ rotr 13 x ^^^ rotr 22 x

/-- SHA-256 big Sigma 1. -/
def bsig1 (x : Nat) : Nat := rotr 6 x ^^^ rotr 11 x ^^^ rotr 25 x

/-- The 64 SHA-256 round constants (FIPS 180-4 §4.2.2, in decimal). -/
def K256 : List Nat :=
  [1116352408, 1899447441, 3049323471, 3921009573, 961987163, 1508970993,
   2453635748, 2870763221, 3624381080, 310598401, 607225278, 1426881987,
   1925078388, 2162078206, 2614888103, 3248222580, 3835390401, 4022224774,
   264347078, 604807628, 770255983, 1249150122, 1555081692, 1996064986,
   2554220882, 2821834349, 2952996808, 3210313671, 3336571891, 3584528711,
   113926993, 338241895, 666307205, 773529912, 1294757372, 1396182291,
   1695183700, 1986661051, 2177026350, 2456956037, 2730485921, 2820302411,
   3259730800, 3345764771, 3516065817, 3600352804, 4094571909, 275423344,
   430227734, 506948616, 659060556, 883997877, 958139571, 1322822218,
   1537002063, 1747873779, 1955562222, 2024104815, 2227730452, 2361852424,
   2428436474, 2756734187, 3204031479, 3329325298]

/-- The SHA-256 initial hash value (FIPS 180-4 §5.3.3, in decimal). -/
def H256 : List Nat :=
  [1779033703, 3144134277, 1013904242, 2773480762,
   1359893119, 2600822924, 528734635, 1541459225]

/-- `k` bytes of `n` in big-endian order. -/
def beBytes : Nat → Nat → List Nat
  | 0, _ => []
  | k + 1, n => beBytes k (n / 256) ++ [n % 256]

/-- SHA-256 padding: append `0x80`, zero bytes, and the 64-bit big-endian
bit length, reaching a multiple of 64 bytes. -/
def sha256Pad (msg : List Nat) : List Nat :=
  let len := msg.length
  let z := (120 - (len + 1) % 64) % 64
  msg ++ [128] ++ List.replicate z 0 ++ beBytes 8 (len * 8)

/-- Group bytes into big-endian 32-bit words. -/
def bytesToWords : List Nat → List Nat
  | a :: b :: c :: d :: rest =>
      (a * 16777216 + b * 65536 + c * 256 + d) :: bytesToWords rest
  | _ => []

/-- Split a word list into 16-word blocks (`fuel` bounds the recursion and
is instantiated with the list length, which always suffices). -/
def chunk16 : Nat → List Nat → List (List Nat)
  | 0, _ => []
  | _, [] => []
  | f + 1, l => l.take 16 :: chunk16 f (l.drop 16)

/-- Extend a message schedule by one word. -/
def stepW (ws : List Nat) : List Nat :=
  let n := ws.length
  ws ++ [w32 (ssig1 (ws.getD (n - 2) 0) + ws.getD (n - 7) 0 +
              ssig0 (ws.getD (n - 15) 0) + ws.getD (n - 16) 0)]

/-- Iterate the schedule extension `k` times. -/
def buildW : List Nat → Nat → List Nat
  | ws, 0 => ws
  | ws, k + 1 => buildW (stepW ws) k

/-- Working state of the SHA-256 compression loop. -/
structure St8 where
  a : Nat
  b : Nat
  c : Nat
  d : Nat
  e : Nat
  f : Nat
  g : Nat
  h : Nat

/-- One SHA-256 round. -/
def roundStep (st : St8) (k w : Nat) : St8 :=
  let t1 := w32 (st.h + bsig1 st.e + ch32 st.e st.f st.g + k + w)
  let t2 := w32 (bsig0 st.a + maj32 st.a st.b st.c)
  ⟨w32 (t1 + t2), st.a, st.b, st.c, w32 (st.d + t1), st.e, st.f, st.g⟩

/-- SHA-256 compression of one 16-word block into an 8-word state. -/
def compress (hs block : List Nat) : List Nat :=
  let ws := buildW block 48
  let st0 : St8 := ⟨hs.getD 0 0, hs.getD 1 0, hs.getD 2 0, hs.getD 3 0,
                    hs.getD 4 0, hs.getD 5 0, hs.getD 6 0, hs.getD 7 0⟩
  let st := (K256.zip ws).foldl (fun s kw => roundStep s kw.1 kw.2) st0
  [w32 (hs.getD 0 0 + st.a), w32 (hs.getD 1 0 + st.b),
   w32 (hs.getD 2 0 + st.c), w32 (hs.getD 3 0 + st.d),
   w32 (hs.getD 4 0 + st.e), w32 (hs.getD 5 0 + st.f),
   w32 (hs.getD 6 0 + st.g), w32 (hs.getD 7 0 + st.h)]

/-- SHA-256 of a byte list, as 8 words. -/
def sha256Words (msg : List Nat) : List Nat :=
  let ws := bytesToWords (sha256Pad msg)
  (chunk16 ws.length ws).foldl compress H256

/-- SHA-256 of a byte list, as 32 bytes. -/
def sha256 (msg : List Nat) : List Nat :=
  (sha256Words msg).flatMap (beBytes 4)

/-! ### HMAC-SHA256 (semantics of `hmac.new(key, msg, hashlib.sha256)`) -/

/-- HMAC-SHA256 digest (32 bytes) of `msg` keyed by `key`. -/
def hmacSha256 (key msg : List Nat) : List Nat :=
  let k0 := if 64 < key.length then sha256 key else key
  let kp := k0 ++ List.replicate (64 - k0.length) 0
  let inner := sha256 (kp.map (fun b => b ^^^ 54) ++ msg)
  sha256 (kp.map (fun b => b ^^^ 92) ++ inner)

/-- Lowercase hexadecimal digit for `n < 16`. -/
def hexDigit (n : Nat) : Char :=
  if n < 10 then Char.ofNat (48 + n) else Char.ofNat (87 + n)

/-- Two lowercase hex characters for one byte. -/
def hexByte (b : Nat) : List Char := [hexDigit (b / 16), hexDigit (b % 16)]

/-- Lowercase hexadecimal rendering of a byte list (Python `.hexdigest()`). -/
def hexdigest (bs : List Nat) : String := String.mk (bs.flatMap hexByte)

/-- UTF-8 encoding of one character. -/
def utf8Char (c : Char) : List Nat :=
  let n := c.toNat
  if n < 128 then [n]
  else if n < 2048 then [192 + n / 64, 128 + n % 64]
  else if n < 65536 then [224 + n / 4096, 128 + (n / 64) % 64, 128 + n % 64]
  else [240 + n / 262144, 128 + (n / 4096) % 64, 128 + (n / 64) % 64, 128 + n % 64]

/-- UTF-8 encoding of a string (Python `str.encode()`). -/
def utf8Bytes (s : String) : List Nat := s.toList.flatMap utf8Char

/-- `main.verify_signature`: compare the lowercase hex HMAC-SHA256 of the
raw body keyed by the secret against the supplied signature.  Python's
`hmac.compare_digest` on ASCII strings is exact (constant-time) string
equality, embedded here as `==`. -/
def verify_signature (secret : String) (body : List Nat) (signature : String) : Bool :=
  hexdigest (hmacSha256 (utf8Bytes secret) body) == signature

/-! ### Message validation (`main.WebhookMessage` and its pydantic validators) -/

/-- Character-level model of Python `str.isdigit`: true for Unicode
characters with a digit numeric type.  Besides the ASCII digits this
includes characters such as the superscript digits (Python's documentation
names "compatibility superscript digits" explicitly); the model covers the
ASCII digits plus the Latin-1 superscripts U+00B9/U+00B2/U+00B3, the only
non-ASCII digit characters this development uses. -/
def pyIsdigit (c : Char) : Bool := c.isDigit || c == '¹' || c == '²' || c == '³'

/-- `WebhookMessage.validate_msisdn`: the value must start with `+` and
`v[1:]` must satisfy Python `str.isdigit` (which is `False` on the empty
string). -/
def validMsisdn (v : String) : Bool :=
  match v.toList with
  | '+' :: rest => !rest.isEmpty && rest.all pyIsdigit
  | _ => false

/-- `v.replace("Z", "+00:00")`: replace every occurrence of `Z`. -/
def replaceZ : List Char → List Char
  | [] => []
  | c :: cs =>
      if c == 'Z' then '+' :: '0' :: '0' :: ':' :: '0' :: '0' :: replaceZ cs
      else c :: replaceZ cs

/-- Parse two decimal digits. -/
def parse2 : List Char → Option (Nat × List Char)
  | a :: b :: rest =>
      if a.isDigit && b.isDigit then
        some ((a.toNat - 48) * 10 + (b.toNat - 48), rest)
      else none
  | _ => none

/-- Parse four decimal digits. -/
def parse4 : List Char → Option (Nat × List Char)
  | a :: b :: c :: d :: rest =>
      if a.isDigit && b.isDigit && c.isDigit && d.isDigit then
        some ((a.toNat - 48) * 1000 + (b.toNat - 48) * 100 +
              (c.toNat - 48) * 10 + (d.toNat - 48), rest)
      else none
  | _ => none

/-- Consume one expected character. -/
def expectChar (c : Char) : List Char → Option (List Char)
  | x :: rest => if x == c then some rest else none
  | [] => none

/-- Gregorian leap-year test. -/
def isLeap (y : Nat) : Bool := (y % 4 == 0 && y % 100 != 0) || y % 400 == 0

/-- Days in a month. -/
def daysInMonth (y m : Nat) : Nat :=
  if m == 2 then (if isLeap y then 29 else 28)
  else if m == 4 || m == 6 || m == 9 || m == 11 then 30
  else 31

/-- Model of Python `datetime.fromisoformat` (does the string parse?),
restricted to the extended ISO-8601 forms
`YYYY-MM-DD[THH:MM[:SS[.fff...]]][±HH:MM]` with calendar-valid fields
(CPython additionally accepts basic-format and week-date inputs, which
this development never exercises). -/
def pyFromIsoformatOk (l : List Char) : Bool :=
  (do
    let (y, r1) ← parse4 l
    let r2 ← expectChar '-' r1
    let (m, r3) ← parse2 r2
    let r4 ← expectChar '-' r3
    let (d, r5) ← parse2 r4
    if y < 1 || m < 1 || 12 < m || d < 1 || daysInMonth y m < d then none
    else
      match r5 with
      | [] => some ()
      | sep :: r6 =>
        if sep != 'T' then none
        else do
          let (hh, r7) ← parse2 r6
          let r8 ← expectChar ':' r7
          let (mm, r9) ← parse2 r8
          if 23 < hh || 59 < mm then none
          else do
            let r10 ← (match r9 with
              | ':' :: rest => do
                  let (ss, ra) ← parse2 rest
                  if 59 < ss then none
                  else
                    match ra with
                    | '.' :: rb =>
                        let ds := rb.takeWhile Char.isDigit
                        if ds.length == 0 then none else some (rb.drop ds.length)
                    | _ => some ra
              | _ => some r9)
            match r10 with
            | [] => some ()
            | s :: r11 =>
                if s != '+' && s != '-' then none
                else do
                  let (th, r12) ← parse2 r11
                  let r13 ← expectChar ':' r12
                  let (tm, r14) ← parse2 r13
                  if 23 < th || 59 < tm then none
                  else match r14 with | [] => some () | _ => none).isSome

/-- `WebhookMessage.validate_timestamp`: the value must end with `Z` and
`v.replace("Z", "+00:00")` must parse with `datetime.fromisoformat`. -/
def validTs (v : String) : Bool :=
  let l := v.toList
  (l.getLast? == some 'Z') && pyFromIsoformatOk (replaceZ l)

/-- `text` constraint: optional, at most 4096 characters. -/
def validText : Option String → Bool
  | none => true
  | some t => decide (t.toList.length ≤ 4096)

/-- The decoded JSON payload of a webhook request: the field values handed
to the `WebhookMessage` pydantic model. -/
structure RawMsg where
  message_id : String
  from_msisdn : String
  to_msisdn : String
  ts : String
  text : Option String
deriving DecidableEq

/-- Full `WebhookMessage` validation: `message_id` non-empty
(`min_length=1`), both msisdns well-formed, timestamp well-formed, text at
most 4096 characters. -/
def validateWebhookMessage (m : RawMsg) : Bool :=
  !m.message_id.toList.isEmpty && validMsisdn m.from_msisdn &&
  validMsisdn m.to_msisdn && validTs m.ts && validText m.text

/-- The claim-side msisdn pattern `^\+\d+$`: a `+` followed by one or more
decimal digits `0`-`9` and nothing else.  (Python's `\d` also matches
Unicode category-Nd digits; the characters this development exercises are
classified identically by both readings.) -/
def matchesPlusDigits (v : String) : Bool :=
  match v.toList with
  | '+' :: rest => !rest.isEmpty && rest.all Char.isDigit
  | _ => false

/-! ### The message store (`storage.Storage` over the SQLite `messages`
table created in `models.init_db`) -/

/-- One row of the `messages` table. -/
structure Row where
  message_id : String
  from_msisdn : String
  to_msisdn : String
  ts : String
  text : Option String
  created_at : String
deriving DecidableEq

/-- `Storage.insert_message`: a single `INSERT` guarded by the
`message_id` PRIMARY KEY constraint.  A duplicate id raises
`sqlite3.IntegrityError`, which the source catches, rolls back, and
converts to `False`; the store is left untouched and no exception
escapes.  Returns the new store and the inserted flag. -/
def insertMessage (db : List Row) (m : RawMsg) (created_at : String) :
    List Row × Bool :=
  if db.any (fun r => r.message_id == m.message_id) then (db, false)
  else (db ++ [⟨m.message_id, m.from_msisdn, m.to_msisdn, m.ts, m.text, created_at⟩], true)

/-- Number of stored rows carrying a given `message_id`. -/
def countId (db : List Row) (id : String) : Nat :=
  db.countP (fun r => r.message_id == id)

/-! ### The webhook ingestion handler (`main.webhook`) -/

/-- Outcome classification recorded by the webhook handler. -/
inductive WebhookOutcome where
  | created
  | duplicate
  | invalidSignature
  | validationError
deriving DecidableEq

/-- Result of one webhook request: the store afterwards, the outcome
classification, and the HTTP status code. -/
structure WebhookStep where
  db : List Row
  outcome : WebhookOutcome
  status : Nat
deriving DecidableEq

/-- `main.webhook`, one request: check the `X-Signature` header for
truthiness (absent or empty rejects), verify the HMAC over the raw body,
then parse and validate, then insert.  `parsed` is the result of
`json.loads` on the body (`none` models a JSON parse failure); JSON
decoding itself is not modelled, so the decoded fields are passed
alongside the raw bytes.  `created_at` is the server clock reading used
for the insert. -/
def webhook (secret : String) (xSignature : Option String) (body : List Nat)
    (parsed : Option RawMsg) (db : List Row) (created_at : String) : WebhookStep :=
  match xSignature with
  | none => ⟨db, .invalidSignature, 401⟩
  | some sig =>
    if sig == "" then ⟨db, .invalidSignature, 401⟩
    else if !verify_signature secret body sig then ⟨db, .invalidSignature, 401⟩
    else
      match parsed with
      | none => ⟨db, .validationError, 422⟩
      | some raw =>
        if !validateWebhookMessage raw then ⟨db, .validationError, 422⟩
        else
          let res := insertMessage db raw created_at
          ⟨res.1, if res.2 then .created else .duplicate, 200⟩

/-! ### Listing (`Storage.get_messages`)

SQLite compares `TEXT` values by `memcmp` on their UTF-8 bytes, which
coincides with lexicographic comparison of codepoint sequences; strings
are therefore compared here as their codepoint lists (`cp`).  SQLite's
`LOWER` folds ASCII letters only, and its `LIKE` is ASCII-case-insensitive
with `%` and `_` wildcards.
-/

/-- Codepoints of a string. -/
def cp (s : String) : List Nat := s.toList.map Char.toNat

/-- ASCII lowercasing of one codepoint (SQLite `LOWER`, Unicode untouched). -/
def asciiLowerN (n : Nat) : Nat := if 65 ≤ n ∧ n ≤ 90 then n + 32 else n

/-- SQLite `LOWER` over a codepoint list. -/
def sqliteLower (l : List Nat) : List Nat := l.map asciiLowerN

/-- Character comparison used by SQLite `LIKE`: equal up to ASCII case. -/
def likeEqN (a b : Nat) : Bool := asciiLowerN a == asciiLowerN b

/-- SQLite `LIKE` pattern matching over codepoint lists: `%` (codepoint
37) matches any sequence, `_` (codepoint 95) matches any one character,
other characters match up to ASCII case.  `fuel` bounds the recursion;
`likeMatch` supplies a sufficient amount. -/
def likeMatchF : Nat → List Nat → List Nat → Bool
  | 0, _, _ => false
  | _ + 1, [], ts => ts.isEmpty
  | f + 1, p :: ps, ts =>
      if p == 37 then
        likeMatchF f ps ts ||
          (match ts with
           | [] => false
           | _ :: ts2 => likeMatchF f (p :: ps) ts2)
      else
        match ts with
        | [] => false
        | t :: ts2 => (p == 95 || likeEqN p t) && likeMatchF f ps ts2

/-- SQLite `LIKE`: does `ts` match pattern `ps`? -/
def likeMatch (ps ts : List Nat) : Bool := likeMatchF (ps.length + ts.length + 1) ps ts

/-- The `q` condition of `get_messages`:
`LOWER(text) LIKE LOWER('%' + q + '%')`.  `NULL` text never matches
(SQL three-valued logic drops the row). -/
def qMatch (q : String) : Option String → Bool
  | none => false
  | some t => likeMatch (sqliteLower (37 :: cp q ++ [37])) (sqliteLower (cp t))

/-- `LIKE`-style (ASCII-case-insensitive) leading-match test. -/
def isPreLike : List Nat → List Nat → Bool
  | [], _ => true
  | _ :: _, [] => false
  | p :: ps, t :: ts => likeEqN p t && isPreLike ps ts

/-- `LIKE`-style (ASCII-case-insensitive) substring test. -/
def isSubLike : List Nat → List Nat → Bool
  | q, [] => q.isEmpty
  | q, t :: ts => isPreLike q (t :: ts) || isSubLike q ts

/-- Plain (case-sensitive) list prefix test. -/
def isPreN : List Nat → List Nat → Bool
  | [], _ => true
  | _ :: _, [] => false
  | p :: ps, t :: ts => p == t && isPreN ps ts

/-- Plain literal substring test. -/
def isSubN : List Nat → List Nat → Bool
  | q, [] => q.isEmpty
  | q, t :: ts => isPreN q (t :: ts) || isSubN q ts

/-- The spec's reading of the `q` filter: the lowercase form of `q` occurs
as a literal substring of the lowercase form of the text (lowercasing as
performed by the store, i.e. ASCII). -/
def claimSubstring (q t : String) : Bool :=
  isSubN (sqliteLower (cp q)) (sqliteLower (cp t))

/-- Lexicographic strict order on codepoint lists (SQLite `TEXT` `<`). -/
def ltListN : List Nat → List Nat → Bool
  | [], [] => false
  | [], _ :: _ => true
  | _ :: _, [] => false
  | a :: as, b :: bs => decide (a < b) || (decide (a = b) && ltListN as bs)

/-- Lexicographic order on codepoint lists (SQLite `TEXT` `<=`). -/
def leListN : List Nat → List Nat → Bool
  | [], _ => true
  | _ :: _, [] => false
  | a :: as, b :: bs => decide (a < b) || (decide (a = b) && leListN as bs)

/-- SQLite `TEXT` strict comparison of strings. -/
def strLtB (a b : String) : Bool := ltListN (cp a) (cp b)

/-- SQLite `TEXT` comparison of strings. -/
def strLeB (a b : String) : Bool := leListN (cp a) (cp b)

/-- Python truthiness of an optional string (`if value:`): `None` and the
empty string are falsy. -/
def truthyStr : Option String → Bool
  | none => false
  | some s => !s.isEmpty

/-- The WHERE clause of `get_messages`: each filter contributes a
conjunct only when truthy (so `None` and `""` impose nothing). -/
def rowPred (f s q : Option String) (r : Row) : Bool :=
  (if truthyStr f then r.from_msisdn == f.getD "" else true) &&
  (if truthyStr s then strLeB (s.getD "") r.ts else true) &&
  (if truthyStr q then qMatch (q.getD "") r.text else true)

/-- `ORDER BY ts ASC, message_id ASC` as a relation on rows, compared the
way SQLite compares `TEXT` (bytewise, i.e. by codepoint list). -/
def rowLe (a b : Row) : Prop :=
  (ltListN (cp a.ts) (cp b.ts) ||
    (cp a.ts == cp b.ts && leListN (cp a.message_id) (cp b.message_id))) = true

instance : DecidableRel rowLe := fun x y =>
  inferInstanceAs (Decidable
    ((ltListN (cp x.ts) (cp y.ts) ||
      (cp x.ts == cp y.ts && leListN (cp x.message_id) (cp y.message_id))) = true))

/-- `Storage.get_messages`: one `COUNT(*)` with the WHERE clause (the
returned total, unaffected by pagination) and one `SELECT` with the same
WHERE clause, `ORDER BY ts ASC, message_id ASC`, `LIMIT ? OFFSET ?`.
SQLite treats a negative `LIMIT` as unbounded and a negative `OFFSET` as
zero.  The handler serializes rows without `created_at`; the model keeps
whole rows. -/
def getMessages (db : List Row) (limit offset : Int) (f s q : Option String) :
    List Row × Nat :=
  let matched := db.filter (rowPred f s q)
  let total := matched.length
  let sorted := List.insertionSort rowLe matched
  let afterOffset := sorted.drop offset.toNat
  let page := if limit < 0 then afterOffset else afterOffset.take limit.toNat
  (page, total)

/-! ### Statistics (`Storage.get_stats`) -/

/-- The stats payload. -/
structure Stats where
  total_messages : Nat
  senders_count : Nat
  messages_per_sender : List (String × Nat)
  first_message_ts : Option String
  last_message_ts : Option String
deriving DecidableEq

/-- `ORDER BY count DESC` as a relation on `(sender, count)` pairs. -/
def cntGe (a b : String × Nat) : Prop := b.2 ≤ a.2

instance : DecidableRel cntGe := fun x y =>
  inferInstanceAs (Decidable (y.2 ≤ x.2))

/-- `SELECT MIN(ts) FROM messages` (for a non-empty store). -/
def minTs (db : List Row) : Option String :=
  match db.map (fun r => r.ts) with
  | [] => none
  | t :: ts => some (ts.foldl (fun acc x => if strLeB acc x then acc else x) t)

/-- `SELECT MAX(ts) FROM messages` (for a non-empty store). -/
def maxTs (db : List Row) : Option String :=
  match db.map (fun r => r.ts) with
  | [] => none
  | t :: ts => some (ts.foldl (fun acc x => if strLeB x acc then acc else x) t)

/-- `Storage.get_stats`: zeros and nulls on an empty store; otherwise the
row count, `COUNT(DISTINCT from_msisdn)`, the per-sender counts sorted by
count descending and truncated to 10 (`GROUP BY from_msisdn ORDER BY
count DESC LIMIT 10`; the grouping order feeding the sort is unspecified
by SQL — the model groups by last occurrence via `dedup` — and only the
count-descending order of the output is relied upon), and `MIN`/`MAX` of
`ts`. -/
def getStats (db : List Row) : Stats :=
  let total := db.length
  if total = 0 then ⟨0, 0, [], none, none⟩
  else
    let senders := (db.map (fun r => r.from_msisdn)).dedup
    let counts := senders.map
      (fun s => (s, (db.filter (fun r => r.from_msisdn == s)).length))
    let top := (List.insertionSort cntGe counts).take 10
    ⟨total, senders.length, top, minTs db, maxTs db⟩

/-! ### The listing endpoint (`main.get_messages`) -/

/-- The listing response body. -/
structure ListResponse where
  data : List Row
  total : Nat
  limit : Int
  offset : Int
deriving DecidableEq

/-- `main.get_messages`: FastAPI validates `limit` with
`Query(50, ge=1, le=100)` and `offset` with `Query(0, ge=0)` before the
handler body runs — an out-of-range value yields a 422 validation error
and the repository is never consulted; absent parameters take the
defaults.  Otherwise the handler delegates to `Storage.get_messages` and
echoes `limit` and `offset` verbatim. -/
def getMessagesEndpoint (db : List Row) (limit offset : Option Int)
    (f s q : Option String) : Except String ListResponse :=
  let l := limit.getD 50
  let o := offset.getD 0
  if l < 1 ∨ 100 < l ∨ o < 0 then Except.error "validation error"
  else
    let res := getMessages db l o f s q
    Except.ok ⟨res.1, res.2, l, o⟩

/-! ### Claim-side auxiliary notions and concrete data used by witnesses
and counterexamples -/

/-- Case-insensitive (ASCII) string equality, the comparison the spec's
signature-gate sentence describes. -/
def ciEqStr (a b : String) : Bool := sqliteLower (cp a) == sqliteLower (cp b)

/-- Uppercase the ASCII letters of a string. -/
def upperHex (s : String) : String :=
  String.mk (s.toList.map (fun c =>
    if 'a' ≤ c ∧ c ≤ 'z' then Char.ofNat (c.toNat - 32) else c))

/-- A well-formed decoded payload. -/
def okRaw : RawMsg :=
  ⟨"m1", "+15551234567", "+15557654321", "2025-01-01T00:00:00Z", some "hi"⟩

/-- A payload whose `from_msisdn` is `+²` (U+00B2, SUPERSCRIPT TWO):
`"²".isdigit()` is `True` in Python, yet `²` matches neither `[0-9]` nor
`\d` (it is in Unicode category No, not Nd). -/
def badRaw : RawMsg :=
  ⟨"m-bad", "+²", "+15557654321", "2025-01-01T00:00:00Z", some "hello"⟩

/-- The correct lowercase hex signature for secret `"s3cr3t"` and body
`"{}"`. -/
def cExpected : String := hexdigest (hmacSha256 (utf8Bytes "s3cr3t") (utf8Bytes "{}"))

/-- The same signature with its hex letters uppercased. -/
def cSigUpper : String := upperHex cExpected

/-- The correct signature for secret `"testsecret"` and the empty body. -/
def wSig : String := hexdigest (hmacSha256 (utf8Bytes "testsecret") [])

/-- First ingestion of `okRaw` into the empty store. -/
def wStep1 : WebhookStep := webhook "testsecret" (some wSig) [] (some okRaw) [] "c1"

/-- Second ingestion of `okRaw`, against the store left by `wStep1`. -/
def wStep2 : WebhookStep := webhook "testsecret" (some wSig) [] (some okRaw) wStep1.db "c2"

/-- A stored row whose text is `"hxi"`. -/
def rowHxi : Row :=
  ⟨"m1", "+15551234567", "+15557654321", "2025-01-01T00:00:00Z", some "hxi",
   "2025-01-01T00:00:05Z"⟩

/-- A stored row matching sender `"+15550001111"` with text about greetings. -/
def rowNine : Row :=
  ⟨"m9", "+15550001111", "+15557654321", "2025-03-04T05:06:07Z", some "say hi there",
   "2025-03-04T05:06:09Z"⟩

/-- Three stored rows: sender A (`+15550001111`) twice, sender B
(`+15550002222`) once. -/
def statsDb : List Row :=
  [⟨"s1", "+15550001111", "+15557654321", "2025-01-01T00:00:00Z", some "a1", "c1"⟩,
   ⟨"s2", "+15550001111", "+15557654321", "2025-01-02T00:00:00Z", some "a2", "c2"⟩,
   ⟨"s3", "+15550002222", "+15557654321", "2025-01-03T00:00:00Z", some "b1", "c3"⟩]

instance : IsTotal Row rowLe := by
  constructor
  intro a b
  have tricho : ∀ x y : List Nat, ltListN x y = true ∨ ltListN y x = true ∨ x = y := by
    intro x
    induction x with
    | nil =>
      intro y
      cases y with
      | nil => exact Or.inr (Or.inr rfl)
      | cons z zs => exact Or.inl rfl
    | cons p ps ih =>
      intro y
      cases y with
      | nil => exact Or.inr (Or.inl rfl)
      | cons q qs =>
        rcases Nat.lt_trichotomy p q with h | h | h
        · left; simp [ltListN, h]
        · subst h
          rcases ih qs with h2 | h2 | h2
          · left; simp [ltListN, h2]
          · right; left; simp [ltListN, h2]
          · right; right; rw [h2]
        · right; left; simp [ltListN, h]
  have letot : ∀ x y : List Nat, leListN x y = true ∨ leListN y x = true := by
    intro x
    induction x with
    | nil => intro y; exact Or.inl rfl
    | cons p ps ih =>
      intro y
      cases y with
      | nil => exact Or.inr rfl
      | cons q qs =>
        rcases Nat.lt_trichotomy p q with h | h | h
        · left; simp [leListN, h]
        · subst h
          rcases ih qs with h2 | h2
          · left; simp [leListN, h2]
          · right; simp [leListN, h2]
        · right; simp [leListN, h]
  unfold rowLe
  rcases tricho (cp a.ts) (cp b.ts) with h | h | h
  · left; simp [h]
  · right; simp [h]
  · rcases letot (cp a.message_id) (cp b.message_id) with h2 | h2
    · left; simp [h, h2]
    · right; simp [h, h2]

instance : IsTrans Row rowLe := by
  constructor
  intro a b c hab hbc
  have lttr : ∀ x y z : List Nat,
      ltListN x y = true → ltListN y z = true → ltListN x z = true := by
    intro x
    induction x with
    | nil =>
      intro y z hxy hyz
      cases y with
      | nil => simp [ltListN] at hxy
      | cons q qs =>
        cases z with
        | nil => simp [ltListN] at hyz
        | cons r rs => rfl
    | cons p ps ih =>
      intro y z hxy hyz
      cases y with
      | nil => simp [ltListN] at hxy
      | cons q qs =>
        cases z with
        | nil => simp [ltListN] at hyz
        | cons r rs =>
          simp only [ltListN, Bool.or_eq_true, Bool.and_eq_true,
            decide_eq_true_eq] at hxy hyz ⊢
          rcases hxy with h1 | ⟨e1, h1⟩ <;> rcases hyz with h2 | ⟨e2, h2⟩
          · exact Or.inl (by omega)
          · exact Or.inl (by omega)
          · exact Or.inl (by omega)
          · exact Or.inr ⟨by omega, ih qs rs h1 h2⟩
  have letr : ∀ x y z : List Nat,
      leListN x y = true → leListN y z = true → leListN x z = true := by
    intro x
    induction x with
    | nil => intro y z hxy hyz; rfl
    | cons p ps ih =>
      intro y z hxy hyz
      cases y with
      | nil => simp [leListN] at hxy
      | cons q qs =>
        cases z with
        | nil => simp [leListN] at hyz
        | cons r rs =>
          simp only [leListN, Bool.or_eq_true, Bool.and_eq_true,
            decide_eq_true_eq] at hxy hyz ⊢
          rcases hxy with h1 | ⟨e1, h1⟩ <;> rcases hyz with h2 | ⟨e2, h2⟩
          · exact Or.inl (by omega)
          · exact Or.inl (by omega)
          · exact Or.inl (by omega)
          · exact Or.inr ⟨by omega, ih qs rs h1 h2⟩
  unfold rowLe at hab hbc ⊢
  simp only [Bool.or_eq_true, Bool.and_eq_true, beq_iff_eq] at hab hbc ⊢
  rcases hab with h1 | ⟨e1, h1⟩ <;> rcases hbc with h2 | ⟨e2, h2⟩
  · exact Or.inl (lttr _ _ _ h1 h2)
  · exact Or.inl (e2 ▸ h1)
  · exact Or.inl (e1.symm ▸ h2)
  · exact Or.inr ⟨e1.trans e2, letr _ _ _ h1 h2⟩

instance : IsTotal (String × Nat) cntGe :=
  ⟨fun x y => Nat.le_total y.2 x.2⟩

instance : IsTrans (String × Nat) cntGe :=
  ⟨fun _ _ _ hxy hyz => Nat.le_trans hyz hxy⟩

/-- Sanity: SHA-256 of `"abc"` matches the FIPS 180-4 test vector. -/
theorem sha256_abc :
    hexdigest (sha256 [97, 98, 99]) =
      "ba7816bf8f01cfea414140de5dae2223b00361a396177a9cb410ff61f20015ad" := by
  decide

/-- Sanity: HMAC-SHA256 test case 2 of RFC 4231 (key `"Jefe"`). -/
theorem hmac_rfc4231_tc2 :
    hexdigest (hmacSha256 (utf8Bytes "Jefe") (utf8Bytes "what do ya want for nothing?")) =
      "5bdcc146bf60754e6a042426089575c75a003f089d2739839dec58b964ec3843" := by
  decide

/-! ### Helper lemmas -/

theorem beBytes_length (k : Nat) : ∀ n, (beBytes k n).length = k := by
  induction k with
  | zero => intro n; rfl
  | succ k ih => intro n; simp [beBytes, ih]

theorem compress_length (hs block : List Nat) : (compress hs block).length = 8 := rfl

theorem foldl_compress_length :
    ∀ (bs : List (List Nat)) (hs : List Nat), hs.length = 8 →
      (bs.foldl compress hs).length = 8 := by
  intro bs
  induction bs with
  | nil => intro hs h; exact h
  | cons b bs ih => intro hs _; exact ih _ (compress_length _ _)

theorem sha256Words_length (msg : List Nat) : (sha256Words msg).length = 8 :=
  foldl_compress_length _ _ rfl

theorem flatMap_beBytes4_length :
    ∀ ws : List Nat, (ws.flatMap (beBytes 4)).length = 4 * ws.length := by
  intro ws
  induction ws with
  | nil => rfl
  | cons w ws ih =>
    simp only [List.flatMap_cons, List.length_append, beBytes_length, ih,
      List.length_cons]
    omega

theorem sha256_length (msg : List Nat) : (sha256 msg).length = 32 := by
  unfold sha256
  rw [flatMap_beBytes4_length, sha256Words_length]

theorem hexdigest_ne_empty {bs : List Nat} (h : bs.length = 32) :
    hexdigest bs ≠ "" := by
  cases bs with
  | nil => simp at h
  | cons b bs =>
    intro heq
    have hdata := congrArg String.data heq
    simp [hexdigest, hexByte] at hdata

theorem hmac_hexdigest_ne_empty (key body : List Nat) :
    hexdigest (hmacSha256 key body) ≠ "" :=
  hexdigest_ne_empty (sha256_length _)

/-- **C4**: for every store state and every filter combination, the
`total` returned by the list operation equals the number of stored rows
satisfying the filters with `limit`/`offset` not applied, and is
independent of the `limit` and `offset` arguments. -/
theorem total_counts_filtered_rows (db : List Row) (l o l2 o2 : Int)
    (f s q : Option String) :
    (getMessages db l o f s q).2 = (db.filter (rowPred f s q)).length ∧
    (getMessages db l o f s q).2 = (getMessages db l2 o2 f s q).2 :=
  ⟨rfl, rfl⟩

/-- **C10**: an empty-string filter argument (`from_msisdn`, `since` or
`q`) behaves exactly as an absent one: Python truthiness drops the
condition, so page and total coincide with the unfiltered call. -/
theorem empty_string_filter_no_op (db : List Row) (l o : Int) (x y : Option String) :
    getMessages db l o (some "") x y = getMessages db l o none x y ∧
    getMessages db l o x (some "") y = getMessages db l o x none y ∧
    getMessages db l o x y (some "") = getMessages db l o x y none :=
  ⟨rfl, rfl, rfl⟩

/-- **C5**: every page returned by the list operation (with or without
filters) is sorted ascending by `ts`, ties broken by ascending
`message_id`. -/
theorem page_sorted (db : List Row) (l o : Int) (f s q : Option String) :
    List.Sorted rowLe (getMessages db l o f s q).1 := by
  have hs := List.sorted_insertionSort rowLe (db.filter (rowPred f s q))
  have hd : List.Sorted rowLe
      ((List.insertionSort rowLe (db.filter (rowPred f s q))).drop o.toNat) :=
    hs.sublist (List.drop_sublist _ _)
  unfold getMessages
  dsimp only
  split
  · exact hd
  · exact hd.sublist (List.take_sublist _ _)

/-- **C9**: with `from_msisdn`, `since` and `q` all supplied (non-empty),
a stored row is counted exactly when all three predicates hold
simultaneously — exact sender match, inclusive lexicographic lower bound
on `ts`, and the `q` text condition — and every returned row satisfies
them. -/
theorem filters_conjunctive (db : List Row) (l o : Int) (x y z : String)
    (hx : x ≠ "") (hy : y ≠ "") (hz : z ≠ "") (r : Row) :
    (r ∈ db.filter (rowPred (some x) (some y) (some z)) ↔
      r ∈ db ∧ r.from_msisdn = x ∧ strLeB y r.ts = true ∧ qMatch z r.text = true) ∧
    (r ∈ (getMessages db l o (some x) (some y) (some z)).1 →
      r.from_msisdn = x ∧ strLeB y r.ts = true ∧ qMatch z r.text = true) := by
  have htruthy : ∀ w : String, w ≠ "" → truthyStr (some w) = true := by
    intro w hw
    cases hwe : w.isEmpty with
    | true => exact absurd ((String.isEmpty_iff w).mp hwe) hw
    | false => simp [truthyStr, hwe]
  have hpred : ∀ rr : Row, rowPred (some x) (some y) (some z) rr =
      (rr.from_msisdn == x && strLeB y rr.ts && qMatch z rr.text) := by
    intro rr
    simp [rowPred, htruthy x hx, htruthy y hy, htruthy z hz]
  have hiff : r ∈ db.filter (rowPred (some x) (some y) (some z)) ↔
      r ∈ db ∧ r.from_msisdn = x ∧ strLeB y r.ts = true ∧ qMatch z r.text = true := by
    rw [List.mem_filter, hpred r]
    simp [Bool.and_eq_true, beq_iff_eq, and_assoc]
  refine ⟨hiff, fun hmem => ?_⟩
  have hsub : List.Sublist (getMessages db l o (some x) (some y) (some z)).1
      (List.insertionSort rowLe (db.filter (rowPred (some x) (some y) (some z)))) := by
    unfold getMessages
    dsimp only
    split
    · exact List.drop_sublist _ _
    · exact (List.take_sublist _ _).trans (List.drop_sublist _ _)
  have h1 : r ∈ List.insertionSort rowLe
      (db.filter (rowPred (some x) (some y) (some z))) := hsub.subset hmem
  have h2 : r ∈ db.filter (rowPred (some x) (some y) (some z)) :=
    (List.perm_insertionSort rowLe _).mem_iff.mp h1
  exact (hiff.mp h2).2

/-- Witness for `filters_conjunctive` at a concrete store and filters. -/
theorem filters_conjunctive_witness :
    (rowNine ∈ [rowNine].filter (rowPred (some "+15550001111") (some "2025") (some "hi")) ↔
      rowNine ∈ [rowNine] ∧ rowNine.from_msisdn = "+15550001111" ∧
      strLeB "2025" rowNine.ts = true ∧ qMatch "hi" rowNine.text = true) ∧
    (rowNine ∈ (getMessages [rowNine] 50 0 (some "+15550001111") (some "2025") (some "hi")).1 →
      rowNine.from_msisdn = "+15550001111" ∧ strLeB "2025" rowNine.ts = true ∧
      qMatch "hi" rowNine.text = true) :=
  filters_conjunctive [rowNine] 50 0 "+15550001111" "2025" "hi"
    (by decide) (by decide) (by decide) rowNine

/-- **C7**: stats on the empty store are all zeros/nulls; on any store the
total equals the row count, `senders_count` is the number of distinct
senders, and `messages_per_sender` is sorted by count descending with at
most 10 entries; concretely, with sender A twice and sender B once it
reports 3 messages, 2 senders and `(A,2)` before `(B,1)`. -/
theorem stats_aggregation (db : List Row) :
    getStats [] = ⟨0, 0, [], none, none⟩ ∧
    (getStats db).total_messages = db.length ∧
    (getStats db).senders_count = (db.map (fun r => r.from_msisdn)).toFinset.card ∧
    List.Sorted cntGe (getStats db).messages_per_sender ∧
    (getStats db).messages_per_sender.length ≤ 10 ∧
    getStats statsDb =
      ⟨3, 2, [("+15550001111", 2), ("+15550002222", 1)],
       some "2025-01-01T00:00:00Z", some "2025-01-03T00:00:00Z"⟩ := by
  refine ⟨by decide, ?_, ?_, ?_, ?_, by decide⟩
  · unfold getStats
    dsimp only
    split
    · next h => exact h.symm
    · rfl
  · unfold getStats
    dsimp only
    split
    · next h =>
      have hnil : db = [] := List.length_eq_zero.mp h
      subst hnil
      simp
    · exact (List.card_toFinset _).symm
  · unfold getStats
    dsimp only
    split
    · exact List.sorted_nil
    · exact (List.sorted_insertionSort cntGe _).sublist (List.take_sublist _ _)
  · unfold getStats
    dsimp only
    split
    · simp
    · exact List.length_take_le _ _

/-- **C8**: the listing endpoint rejects, before any repository query
(the result is then independent of the store), every request with `limit`
outside `[1, 100]` or negative `offset`; omitted parameters default to 50
and 0, and accepted requests echo `limit` and `offset` verbatim next to
the page and total. -/
theorem listing_endpoint_bounds (db db2 : List Row) (limit offset : Option Int)
    (f s q : Option String) :
    (¬ (1 ≤ limit.getD 50 ∧ limit.getD 50 ≤ 100 ∧ 0 ≤ offset.getD 0) →
      getMessagesEndpoint db limit offset f s q = Except.error "validation error" ∧
      getMessagesEndpoint db limit offset f s q =
        getMessagesEndpoint db2 limit offset f s q) ∧
    ((1 ≤ limit.getD 50 ∧ limit.getD 50 ≤ 100 ∧ 0 ≤ offset.getD 0) →
      getMessagesEndpoint db limit offset f s q =
        Except.ok ⟨(getMessages db (limit.getD 50) (offset.getD 0) f s q).1,
                   (getMessages db (limit.getD 50) (offset.getD 0) f s q).2,
                   limit.getD 50, offset.getD 0⟩) := by
  constructor
  · intro h
    have hc : limit.getD 50 < 1 ∨ 100 < limit.getD 50 ∨ offset.getD 0 < 0 := by omega
    constructor
    · unfold getMessagesEndpoint
      dsimp only
      rw [if_pos hc]
    · unfold getMessagesEndpoint
      dsimp only
      rw [if_pos hc, if_pos hc]
  · intro h
    have hc : ¬ (limit.getD 50 < 1 ∨ 100 < limit.getD 50 ∨ offset.getD 0 < 0) := by omega
    unfold getMessagesEndpoint
    dsimp only
    rw [if_neg hc]

/-- Witness for `listing_endpoint_bounds`: `limit = 150` is rejected and
the result does not depend on the store contents. -/
theorem listing_endpoint_bounds_witness :
    getMessagesEndpoint [] (some 150) none none none none =
      Except.error "validation error" ∧
    getMessagesEndpoint [] (some 150) none none none none =
      getMessagesEndpoint [rowNine] (some 150) none none none none :=
  (listing_endpoint_bounds [] [rowNine] (some 150) none none none none).1 (by decide)

theorem asciiLowerN_idem (n : Nat) : asciiLowerN (asciiLowerN n) = asciiLowerN n := by
  unfold asciiLowerN
  by_cases h : 65 ≤ n ∧ n ≤ 90
  · rw [if_pos h, if_neg (by omega)]
  · rw [if_neg h, if_neg h]

theorem asciiLowerN_ne_wild {n : Nat} (h37 : n ≠ 37) (h95 : n ≠ 95) :
    asciiLowerN n ≠ 37 ∧ asciiLowerN n ≠ 95 := by
  unfold asciiLowerN
  by_cases h : 65 ≤ n ∧ n ≤ 90
  · rw [if_pos h]; omega
  · rw [if_neg h]; omega

theorem sqliteLower_fixed (l : List Nat) : ∀ x ∈ sqliteLower l, asciiLowerN x = x := by
  intro x hx
  simp only [sqliteLower, List.mem_map] at hx
  obtain ⟨y, _, rfl⟩ := hx
  exact asciiLowerN_idem y

theorem sqliteLower_wildfree {l : List Nat} (h : ∀ c ∈ l, c ≠ 37 ∧ c ≠ 95) :
    ∀ p ∈ sqliteLower l, p ≠ 37 ∧ p ≠ 95 := by
  intro p hp
  simp only [sqliteLower, List.mem_map] at hp
  obtain ⟨y, hy, rfl⟩ := hp
  exact asciiLowerN_ne_wild (h y hy).1 (h y hy).2

theorem sqliteLower_pattern (l : List Nat) :
    sqliteLower (37 :: l ++ [37]) = 37 :: sqliteLower l ++ [37] := by
  simp [sqliteLower, asciiLowerN]

theorem like_pct_all : ∀ fuel ts, ts.length + 1 < fuel → likeMatchF fuel [37] ts = true := by
  intro fuel
  induction fuel with
  | zero => intro ts h; omega
  | succ f ih =>
    intro ts h
    cases ts with
    | nil =>
      cases f with
      | zero => omega
      | succ f2 => rfl
    | cons t ts2 =>
      have h2 : ts2.length + 1 < f := by
        simp only [List.length_cons] at h
        omega
      show (likeMatchF f [] (t :: ts2) || likeMatchF f [37] ts2) = true
      rw [ih ts2 h2, Bool.or_true]

theorem likeMatchF_wildfree_pct :
    ∀ fuel ps ts, (∀ p ∈ ps, p ≠ 37 ∧ p ≠ 95) → ps.length + ts.length + 1 < fuel →
      likeMatchF fuel (ps ++ [37]) ts = isPreLike ps ts := by
  intro fuel
  induction fuel with
  | zero => intro ps ts _ h; omega
  | succ f ih =>
    intro ps ts hw h
    cases ps with
    | nil =>
      rw [List.nil_append, like_pct_all (f + 1) ts (by simpa using h)]
      rfl
    | cons p ps2 =>
      have hp := hw p (List.mem_cons_self p ps2)
      have hw2 : ∀ x ∈ ps2, x ≠ 37 ∧ x ≠ 95 :=
        fun x hx => hw x (List.mem_cons_of_mem p hx)
      have h37 : (p == 37) = false := by simp [hp.1]
      have h95 : (p == 95) = false := by simp [hp.2]
      cases ts with
      | nil => simp [likeMatchF, isPreLike, h37]
      | cons t ts2 =>
        have hlen : ps2.length + ts2.length + 1 < f := by
          simp only [List.length_cons] at h
          omega
        simp [likeMatchF, isPreLike, h37, h95, ih ps2 ts2 hw2 hlen]

theorem likeMatchF_sub :
    ∀ fuel ps ts, (∀ p ∈ ps, p ≠ 37 ∧ p ≠ 95) → ps.length + ts.length + 2 < fuel →
      likeMatchF fuel (37 :: ps ++ [37]) ts = isSubLike ps ts := by
  intro fuel
  induction fuel with
  | zero => intro ps ts _ h; omega
  | succ f ih =>
    intro ps ts hw h
    cases ts with
    | nil =>
      have hred : likeMatchF (f + 1) (37 :: ps ++ [37]) [] =
          (likeMatchF f (ps ++ [37]) [] || false) := rfl
      have hlen : ps.length + List.length ([] : List Nat) + 1 < f := by
        simp only [List.length_nil] at h ⊢
        omega
      rw [hred, likeMatchF_wildfree_pct f ps [] hw hlen, Bool.or_false]
      cases ps <;> rfl
    | cons t ts2 =>
      have hred : likeMatchF (f + 1) (37 :: ps ++ [37]) (t :: ts2) =
          (likeMatchF f (ps ++ [37]) (t :: ts2) || likeMatchF f (37 :: ps ++ [37]) ts2) := rfl
      have hlen1 : ps.length + (t :: ts2).length + 1 < f := by
        simp only [List.length_cons] at h ⊢
        omega
      have hlen2 : ps.length + ts2.length + 2 < f := by
        simp only [List.length_cons] at h
        omega
      rw [hred, likeMatchF_wildfree_pct f ps (t :: ts2) hw hlen1, ih ps ts2 hw hlen2]
      rfl

theorem isPreLike_eq_isPreN : ∀ ps ts : List Nat,
    (∀ p ∈ ps, asciiLowerN p = p) → (∀ t ∈ ts, asciiLowerN t = t) →
    isPreLike ps ts = isPreN ps ts := by
  intro ps
  induction ps with
  | nil => intro ts _ _; rfl
  | cons p ps2 ih =>
    intro ts hps hts
    cases ts with
    | nil => rfl
    | cons t ts2 =>
      simp only [isPreLike, isPreN, likeEqN,
        hps p (List.mem_cons_self p ps2), hts t (List.mem_cons_self t ts2)]
      rw [ih ts2 (fun x hx => hps x (List.mem_cons_of_mem p hx))
            (fun x hx => hts x (List.mem_cons_of_mem t hx))]

theorem isSubLike_eq_isSubN : ∀ ps ts : List Nat,
    (∀ p ∈ ps, asciiLowerN p = p) → (∀ t ∈ ts, asciiLowerN t = t) →
    isSubLike ps ts = isSubN ps ts := by
  intro ps ts
  induction ts with
  | nil => intro _ _; rfl
  | cons t ts2 ih =>
    intro hps hts
    simp only [isSubLike, isSubN]
    rw [isPreLike_eq_isPreN ps (t :: ts2) hps hts,
        ih hps (fun x hx => hts x (List.mem_cons_of_mem t hx))]

/-- **C6 counterexample**: the claim says the `q` filter matches exactly
when the lowercased `q` is a literal substring of the lowercased text.
But the source interpolates `q` into a SQL `LIKE` pattern unescaped, so
`_` matches any single character: `q = "h_i"` matches the stored text
`"hxi"` (the row is counted and returned) although `"h_i"` is not a
literal substring of `"hxi"`. -/
theorem q_wildcard_counterexample :
    (getMessages [rowHxi] 50 0 none none (some "h_i")).2 = 1 ∧
    (getMessages [rowHxi] 50 0 none none (some "h_i")).1 = [rowHxi] ∧
    claimSubstring "h_i" "hxi" = false := by
  decide

/-- **C6 (amended)**: for a non-empty search term `q` containing no SQL
`LIKE` wildcard (`%`, `_`), the `q` filter matches a stored message
exactly when the ASCII-lowercased `q` occurs as a literal substring of
the ASCII-lowercased text, and a message with null `text` never matches.
(With wildcards in `q` the term acts as a `LIKE` pattern instead, and the
lowercasing the store performs is ASCII-only.) -/
theorem q_filter_literal_substring (q : String) (r : Row) (hq : q ≠ "")
    (hw : ∀ c ∈ cp q, c ≠ 37 ∧ c ≠ 95) :
    rowPred none none (some q) r =
      (match r.text with
       | none => false
       | some t => claimSubstring q t) := by
  have htq : truthyStr (some q) = true := by
    cases hqe : q.isEmpty with
    | true => exact absurd ((String.isEmpty_iff q).mp hqe) hq
    | false => simp [truthyStr, hqe]
  have ht0 : truthyStr (none : Option String) = false := rfl
  have hpred : rowPred none none (some q) r = qMatch q r.text := by
    simp [rowPred, htq, ht0]
  rw [hpred]
  cases htext : r.text with
  | none => rfl
  | some t =>
    show likeMatch (sqliteLower (37 :: cp q ++ [37])) (sqliteLower (cp t)) =
      claimSubstring q t
    rw [sqliteLower_pattern]
    unfold likeMatch claimSubstring
    rw [likeMatchF_sub _ _ _ (sqliteLower_wildfree hw)
          (by simp [sqliteLower]; omega)]
    exact isSubLike_eq_isSubN _ _ (sqliteLower_fixed _) (sqliteLower_fixed _)

/-- Witness for `q_filter_literal_substring` at a wildcard-free term. -/
theorem q_filter_literal_substring_witness :
    rowPred none none (some "hi") rowNine =
      (match rowNine.text with
       | none => false
       | some t => claimSubstring "hi" t) :=
  q_filter_literal_substring "hi" rowNine (by decide) (by decide)

theorem insertMessage_mem_after (db : List Row) (m : RawMsg) (ca : String) :
    (insertMessage db m ca).1.any (fun r => r.message_id == m.message_id) = true := by
  unfold insertMessage
  by_cases h : db.any (fun r => r.message_id == m.message_id) = true
  · rw [if_pos h]
    exact h
  · rw [if_neg h]
    simp

theorem insertMessage_countId (db : List Row) (m : RawMsg) (ca : String)
    (h : countId db m.message_id ≤ 1) :
    countId (insertMessage db m ca).1 m.message_id = 1 := by
  unfold insertMessage countId
  unfold countId at h
  by_cases hex : db.any (fun r => r.message_id == m.message_id) = true
  · rw [if_pos hex]
    dsimp only
    have hpos : 0 < db.countP (fun r => r.message_id == m.message_id) := by
      rw [List.countP_pos_iff]
      obtain ⟨a, ha, hpa⟩ := List.any_eq_true.mp hex
      exact ⟨a, ha, hpa⟩
    omega
  · rw [if_neg hex]
    dsimp only
    have hzero : db.countP (fun r => r.message_id == m.message_id) = 0 := by
      rw [List.countP_eq_zero]
      intro a ha
      have hall := List.any_eq_false.mp (Bool.not_eq_true _ ▸ hex : db.any _ = false)
      exact hall a ha
    rw [List.countP_append, hzero]
    simp

theorem insertMessage_dup (db : List Row) (m : RawMsg) (ca : String)
    (h : db.any (fun r => r.message_id == m.message_id) = true) :
    insertMessage db m ca = (db, false) := by
  unfold insertMessage
  rw [if_pos h]

/-- Evaluation of `webhook` once the signature and validation gates pass:
the request reaches the repository insert. -/
theorem webhook_ok_eval (secret : String) (body : List Nat) (sig : String)
    (raw : RawMsg) (db : List Row) (ca : String)
    (hsig : verify_signature secret body sig = true)
    (hval : validateWebhookMessage raw = true) :
    webhook secret (some sig) body (some raw) db ca =
      ⟨(insertMessage db raw ca).1,
       if (insertMessage db raw ca).2 then WebhookOutcome.created
       else WebhookOutcome.duplicate, 200⟩ := by
  have hseq : hexdigest (hmacSha256 (utf8Bytes secret) body) = sig := by
    simpa [verify_signature] using hsig
  have hne : sig ≠ "" := by
    intro h
    rw [h] at hseq
    exact hmac_hexdigest_ne_empty _ _ hseq
  have hbeq : (sig == "") = false := beq_eq_false_iff_ne.mpr hne
  simp [webhook, hbeq, hsig, hval]

/-- **C1**: ingesting a valid message twice (each time with its correct
signature) yields two success responses; the second ingestion is
classified `duplicate`, the store then holds exactly one row for the
message id, and the second insert attempt changes nothing (the repository
reports the duplicate as `False` instead of raising, leaving every field
of the stored row intact). -/
theorem ingest_idempotent (secret : String) (body : List Nat) (sig : String)
    (raw : RawMsg) (db : List Row) (ca1 ca2 : String)
    (hsig : verify_signature secret body sig = true)
    (hval : validateWebhookMessage raw = true)
    (hdb : countId db raw.message_id ≤ 1) :
    (webhook secret (some sig) body (some raw) db ca1).status = 200 ∧
    (webhook secret (some sig) body (some raw)
        (webhook secret (some sig) body (some raw) db ca1).db ca2).status = 200 ∧
    (webhook secret (some sig) body (some raw)
        (webhook secret (some sig) body (some raw) db ca1).db ca2).outcome =
      WebhookOutcome.duplicate ∧
    countId (webhook secret (some sig) body (some raw)
        (webhook secret (some sig) body (some raw) db ca1).db ca2).db
      raw.message_id = 1 ∧
    (webhook secret (some sig) body (some raw)
        (webhook secret (some sig) body (some raw) db ca1).db ca2).db =
      (webhook secret (some sig) body (some raw) db ca1).db := by
  rw [webhook_ok_eval secret body sig raw db ca1 hsig hval]
  rw [webhook_ok_eval secret body sig raw _ ca2 hsig hval]
  have hdup := insertMessage_dup (insertMessage db raw ca1).1 raw ca2
    (insertMessage_mem_after db raw ca1)
  rw [hdup]
  refine ⟨rfl, rfl, rfl, ?_, rfl⟩
  exact insertMessage_countId db raw ca1 hdb

/-- Witness for `ingest_idempotent` on the empty store and a concrete
valid message. -/
theorem ingest_idempotent_witness :
    wStep1.status = 200 ∧ wStep2.status = 200 ∧
    wStep2.outcome = WebhookOutcome.duplicate ∧
    countId wStep2.db okRaw.message_id = 1 ∧ wStep2.db = wStep1.db :=
  ingest_idempotent "testsecret" [] wSig okRaw [] "c1" "c2"
    (by decide) (by decide) (by decide)

/-- **C2 (amended)**: for any body, secret and request, the webhook is
rejected with an authentication error (classified `invalid_signature`,
status 401, store untouched) exactly when no signature is supplied or
the supplied signature differs — by exact, case-sensitive (constant-time)
string comparison — from the lowercase hexadecimal HMAC-SHA256 of the
body keyed by the secret; this holds regardless of body validity.  The
ASCII hypothesis scopes the statement to where `hmac.compare_digest` on
`str` operands is defined (it raises `TypeError` on non-ASCII input
rather than returning a boolean). -/
theorem signature_gate (secret : String) (body : List Nat) (sig : Option String)
    (parsed : Option RawMsg) (db : List Row) (ca : String)
    (_hascii : ∀ s0, sig = some s0 → ∀ c ∈ s0.toList, c.toNat ≤ 127) :
    ((webhook secret sig body parsed db ca).outcome = WebhookOutcome.invalidSignature ↔
      sig ≠ some (hexdigest (hmacSha256 (utf8Bytes secret) body))) ∧
    ((webhook secret sig body parsed db ca).outcome = WebhookOutcome.invalidSignature →
      (webhook secret sig body parsed db ca).db = db ∧
      (webhook secret sig body parsed db ca).status = 401) := by
  cases sig with
  | none =>
    constructor
    · simp [webhook]
    · intro _
      exact ⟨rfl, rfl⟩
  | some s =>
    by_cases hes : s = ""
    · subst hes
      constructor
      · refine iff_of_true rfl ?_
        intro h
        exact hmac_hexdigest_ne_empty _ _ ((Option.some.inj h).symm)
      · intro _
        exact ⟨rfl, rfl⟩
    · have hb1 : (s == "") = false := beq_eq_false_iff_ne.mpr hes
      by_cases hver : verify_signature secret body s = true
      · have hseq : hexdigest (hmacSha256 (utf8Bytes secret) body) = s := by
          simpa [verify_signature] using hver
        have hout : (webhook secret (some s) body parsed db ca).outcome ≠
            WebhookOutcome.invalidSignature := by
          simp only [webhook, hb1, hver]
          cases parsed with
          | none => simp
          | some raw =>
            by_cases hv : validateWebhookMessage raw = true
            · simp only [hv]
              split
              · simp_all
              · split
                · simp_all
                · split <;> simp
            · have hv' : validateWebhookMessage raw = false := by
                cases hvv : validateWebhookMessage raw with
                | true => exact absurd hvv hv
                | false => rfl
              simp [hv']
        have hsome : some s = some (hexdigest (hmacSha256 (utf8Bytes secret) body)) := by
          rw [hseq]
        constructor
        · exact iff_of_false hout (not_not_intro hsome)
        · intro h
          exact absurd h hout
      · have hvf : verify_signature secret body s = false := by
          cases hvv : verify_signature secret body s with
          | true => exact absurd hvv hver
          | false => rfl
        have hred : webhook secret (some s) body parsed db ca =
            ⟨db, WebhookOutcome.invalidSignature, 401⟩ := by
          simp [webhook, hb1, hvf]
        constructor
        · rw [hred]
          refine iff_of_true rfl ?_
          intro h
          apply hver
          have hs : s = hexdigest (hmacSha256 (utf8Bytes secret) body) :=
            Option.some.inj h
          simp [verify_signature, hs]
        · intro _
          rw [hred]
          exact ⟨rfl, rfl⟩

/-- Witness for `signature_gate` at a concrete wrong (ASCII) signature. -/
theorem signature_gate_witness :
    ((webhook "s3cr3t" (some "deadbeef") (utf8Bytes "{}") none [] "t").outcome =
        WebhookOutcome.invalidSignature ↔
      some "deadbeef" ≠
        some (hexdigest (hmacSha256 (utf8Bytes "s3cr3t") (utf8Bytes "{}")))) ∧
    ((webhook "s3cr3t" (some "deadbeef") (utf8Bytes "{}") none [] "t").outcome =
        WebhookOutcome.invalidSignature →
      (webhook "s3cr3t" (some "deadbeef") (utf8Bytes "{}") none [] "t").db = [] ∧
      (webhook "s3cr3t" (some "deadbeef") (utf8Bytes "{}") none [] "t").status = 401) :=
  signature_gate "s3cr3t" (utf8Bytes "{}") (some "deadbeef") none [] "t"
    (by intro s0 h; cases h; decide)

/-- **C2 counterexample**: the claim reads the comparison as
case-insensitive, but `hmac.compare_digest` is exact: the uppercase
rendering of the correct digest is case-insensitively equal to the
lowercase digest, is a supplied signature, and is nevertheless rejected
as `invalid_signature` — even with a fully valid decoded body. -/
theorem signature_case_counterexample :
    ciEqStr cSigUpper cExpected = true ∧
    cSigUpper ≠ cExpected ∧
    (webhook "s3cr3t" (some cSigUpper) (utf8Bytes "{}") (some okRaw) [] "t").outcome =
      WebhookOutcome.invalidSignature ∧
    (webhook "s3cr3t" (some cSigUpper) (utf8Bytes "{}") (some okRaw) [] "t").db = [] := by
  decide

/-- **C3**: the spec requires `from`/`to` to match `^\+\d+$`, and the
validator's own docstring says E.164, but the source checks
`v[1:].isdigit()`: the payload `badRaw` with `from_msisdn = "+²"`
(SUPERSCRIPT TWO) fails the pattern yet passes validation and reaches the
repository insert, which stores it and classifies the request `created`. -/
theorem validator_accepts_superscript_two :
    validMsisdn "+²" = true ∧
    matchesPlusDigits "+²" = false ∧
    validateWebhookMessage badRaw = true ∧
    webhook "s3cr3t" (some cExpected) (utf8Bytes "{}") (some badRaw) [] "t" =
      ⟨[⟨"m-bad", "+²", "+15557654321", "2025-01-01T00:00:00Z", some "hello", "t"⟩],
       WebhookOutcome.created, 200⟩ := by
  decide

end Webhook
